import Mathlib

/-!
Shallow embedding of the paint component (`PaintApp`) of this repository:
a React component over a Konva stage that lets the user draw, select,
transform and delete rectangles and circles, logging every mutation.

The repository holds two variants of the component; the unnamed source file
is the later one (it logs the "create" event on pointer-up, deselects on an
empty-canvas click, and takes absolute values in the transform handler), and
it is the variant the specification describes, so it is the one embedded
here.  JS numbers are modelled as exact reals, `Date.now()` as an explicit
natural-number timestamp argument, and the random fill color as an explicit
string argument.  React `useState` fields become fields of a configuration
record; a handler reads the closure values of the state (the values at the
start of the event) and returns the configuration produced by its `set*`
calls, which is exactly how React batches the updates of a single handler.
The Konva node handed to `handleTransformEnd`/`handleDragEnd` is modelled as
a record of the accessors the handler reads (`x`, `y`, `width`, `height`,
`radius`, `scaleX`, `scaleY`, `id`), with `hasRadius` standing for the
truthiness of the `node.radius` method (present exactly on circle nodes).
-/

namespace Paint

/-- The `SHAPES` enumeration of the source: `rectangle` and `circle`. -/
inductive ShapeType where
  | rectangle
  | circle
deriving DecidableEq

/-- A shape record as stored in the component's `shapes` list. -/
structure Shape where
  id : String
  type : ShapeType
  x : ℝ
  y : ℝ
  width : ℝ
  height : ℝ
  radius : ℝ
  fill : String

/-- A pointer position as returned by `stage.getPointerPosition()`. -/
structure Pos where
  x : ℝ
  y : ℝ

/-- The Konva node passed to the transform-end / drag-end handler.
`hasRadius` models the truthiness of the `node.radius` method, which exists
exactly on circle nodes. -/
structure KNode where
  id : String
  x : ℝ
  y : ℝ
  width : ℝ
  height : ℝ
  hasRadius : Bool
  radius : ℝ
  scaleX : ℝ
  scaleY : ℝ

/-- One structured record emitted by `logShapeUpdate`: the action tag plus
the shape's fields with the numeric ones rounded. -/
structure LogEntry where
  action : String
  id : String
  type : ShapeType
  x : ℤ
  y : ℤ
  width : ℤ
  height : ℤ
  radius : ℤ
  fill : String

/-- The component state: the `useState` cells of `PaintApp` plus the node
list of the transformer ref and the console log of emitted records. -/
@[ext]
structure Cfg where
  shapes : List Shape
  selectedShape : Option Shape
  selectedTool : ShapeType
  isDrawing : Bool
  newShape : Option Shape
  transformerNodes : List String
  log : List LogEntry

/-- Result of a handler that can dereference a possibly-null pointer
position: the configuration after the `set*` calls that ran, and whether the
handler raised a `TypeError` (`pos.x` on `null`). -/
structure HandlerResult where
  cfg : Cfg
  threw : Bool

/-- JavaScript `Math.round`: round half toward positive infinity. -/
noncomputable def roundJS (x : ℝ) : ℤ := ⌊x + 1 / 2⌋

/-- `logShapeUpdate(action, shape)`: the structured record written to the
console.  `shape.width || 0` is the identity on (exact) numbers except that
it maps `0` to `0`, so it is modelled as the field itself. -/
noncomputable def logShapeUpdate (action : String) (s : Shape) : LogEntry :=
  { action := action
    id := s.id
    type := s.type
    x := roundJS s.x
    y := roundJS s.y
    width := roundJS s.width
    height := roundJS s.height
    radius := roundJS s.radius
    fill := s.fill }

/-- The id string generated at creation: `` `shape-${Date.now()}` ``. -/
def mkId (now : ℕ) : String := "shape-" ++ toString now

/-- The initial state of the component's `useState` cells. -/
def initCfg : Cfg :=
  { shapes := []
    selectedShape := none
    selectedTool := ShapeType.rectangle
    isDrawing := false
    newShape := none
    transformerNodes := []
    log := [] }

/-- `handleMouseDown`: on an empty-canvas click it clears the selection and,
when a transformer is mounted (exactly when a shape was selected), empties
its node set; it then returns unless the click was on empty canvas with no
prior selection (the guard reads the closure value of `selectedShape`), and
otherwise dereferences the pointer position (throwing on `null`) and appends
a fresh zero-extent shape, marking the drawing flag. -/
def handleMouseDown (c : Cfg) (clickedOnEmpty : Bool) (pos : Option Pos)
    (now : ℕ) (fill : String) : HandlerResult :=
  let c1 : Cfg :=
    if clickedOnEmpty then
      { c with selectedShape := none
               transformerNodes :=
                 if c.selectedShape.isSome then [] else c.transformerNodes }
    else c
  if c.selectedShape.isSome || !clickedOnEmpty then ⟨c1, false⟩
  else
    match pos with
    | none => ⟨c1, true⟩
    | some p =>
      let shape : Shape :=
        { id := mkId now
          type := c.selectedTool
          x := p.x
          y := p.y
          width := 0
          height := 0
          radius := 0
          fill := fill }
      ⟨{ c1 with newShape := some shape
                 shapes := c1.shapes ++ [shape]
                 isDrawing := true }, false⟩

/-- `handleMouseMove`: a no-op unless drawing with an in-progress shape;
otherwise it dereferences the pointer position (throwing on `null`) and
overwrites the in-progress rectangle's width/height with the offsets from
its anchor, or the in-progress circle's radius with the Euclidean distance
from its anchor, re-committing the updated shape into the list by id. -/
noncomputable def handleMouseMove (c : Cfg) (pos : Option Pos) : HandlerResult :=
  if !c.isDrawing then ⟨c, false⟩
  else
    match c.newShape with
    | none => ⟨c, false⟩
    | some ns =>
      match pos with
      | none => ⟨c, true⟩
      | some p =>
        match ns.type with
        | ShapeType.rectangle =>
          let updated : Shape := { ns with width := p.x - ns.x, height := p.y - ns.y }
          ⟨{ c with shapes := c.shapes.map fun s => if s.id == ns.id then updated else s
                    newShape := some updated }, false⟩
        | ShapeType.circle =>
          let dx := p.x - ns.x
          let dy := p.y - ns.y
          let r := Real.sqrt (dx * dx + dy * dy)
          let updated : Shape := { ns with radius := r }
          ⟨{ c with shapes := c.shapes.map fun s => if s.id == ns.id then updated else s
                    newShape := some updated }, false⟩

/-- `handleMouseUp`: when a draw is in progress it logs the single "create"
event for the finished shape and clears the drawing flag and the
in-progress shape. -/
noncomputable def handleMouseUp (c : Cfg) : Cfg :=
  if c.isDrawing then
    match c.newShape with
    | some ns =>
      { c with log := c.log ++ [logShapeUpdate "create" ns]
               isDrawing := false
               newShape := none }
    | none => c
  else c

/-- `handleShapeSelect`: sets the clicked shape as selected and, when a
transformer was already mounted (a shape was selected before), attaches
the node found by `stage.findOne('#' + shape.id)` among the rendered
shapes. -/
def handleShapeSelect (c : Cfg) (shape : Option Shape) : Cfg :=
  match shape with
  | none => c
  | some s =>
    let c1 : Cfg := { c with selectedShape := some s }
    if c.selectedShape.isSome then
      if c.shapes.any fun t => t.id == s.id then
        { c1 with transformerNodes := [s.id] }
      else c1
    else c1

/-- `handleTransformEnd` (also the drag-end handler): reads the node's scale
factors, resets them to 1 on the node, and rebuilds the shape's list entry
from the node, folding the scale into absolute width/height (and radius for
circle nodes).  `shapes.find(...)` can fail in JS only for a node whose id
matches no shape, spreading `undefined`; that case is modelled with empty
id/fill and rectangle type, which no rendered node produces. -/
noncomputable def handleTransformEnd (c : Cfg) (node : KNode) : Cfg × KNode :=
  let sx := node.scaleX
  let sy := node.scaleY
  let node2 : KNode := { node with scaleX := 1, scaleY := 1 }
  let base := c.shapes.find? fun s => s.id == node.id
  let updated : Shape :=
    { id := (base.map Shape.id).getD ""
      type := (base.map Shape.type).getD ShapeType.rectangle
      x := node.x
      y := node.y
      width := |node.width * sx|
      height := |node.height * sy|
      radius := if node.hasRadius then |node.radius * sx| else 0
      fill := (base.map Shape.fill).getD "" }
  ({ c with shapes := c.shapes.map fun s => if s.id == updated.id then updated else s
            log := c.log ++ [logShapeUpdate "modify" updated] }, node2)

/-- `handleDelete`: with no selection it is a no-op; otherwise it logs the
"delete" event, filters the selected id out of the list, clears the
selection and empties the (mounted) transformer's node set. -/
noncomputable def handleDelete (c : Cfg) : Cfg :=
  match c.selectedShape with
  | none => c
  | some sel =>
    { c with log := c.log ++ [logShapeUpdate "delete" sel]
             shapes := c.shapes.filter fun s => !(s.id == sel.id)
             selectedShape := none
             transformerNodes := [] }

/-- A toolbar click on the Rectangle or Circle button. -/
def selectToolClick (c : Cfg) (t : ShapeType) : Cfg :=
  { c with selectedTool := t }

/-- The Konva node rendered for shape `s`, as it reaches the transform-end
or drag-end handler: its id is the shape's; a rectangle node carries the
absolute-valued width/height props and no `radius` method; a circle node
carries the shape's radius, from which Konva derives a width and height of
twice the radius.  Position and scale are whatever the gesture produced. -/
def RenderedNode (s : Shape) (node : KNode) : Prop :=
  node.id = s.id ∧
  ((s.type = ShapeType.rectangle ∧ node.hasRadius = false ∧
      node.width = |s.width| ∧ node.height = |s.height|) ∨
    (s.type = ShapeType.circle ∧ node.hasRadius = true ∧
      node.radius = s.radius ∧ node.width = 2 * s.radius ∧
      node.height = 2 * s.radius))

/-- Reachability from the initial state, indexed by the list of
`Date.now()` timestamps handed to the pointer-down events, in order.
Shape clicks and transform/drag ends are constrained to what the canvas
renders: a clicked shape comes from the rendered list, and a transformed
node is the rendered node of a listed shape. -/
inductive ReachL : List ℕ → Cfg → Prop where
  | init : ReachL [] initCfg
  | mouseDown {ts c} (clickedOnEmpty : Bool) (pos : Option Pos) (now : ℕ)
      (fill : String) (h : ReachL ts c) :
      ReachL (ts ++ [now]) (handleMouseDown c clickedOnEmpty pos now fill).cfg
  | mouseMove {ts c} (pos : Option Pos) (h : ReachL ts c) :
      ReachL ts (handleMouseMove c pos).cfg
  | mouseUp {ts c} (h : ReachL ts c) : ReachL ts (handleMouseUp c)
  | shapeClick {ts c} (s : Shape) (hs : s ∈ c.shapes) (h : ReachL ts c) :
      ReachL ts (handleShapeSelect c (some s))
  | transformEnd {ts c} (node : KNode) (s : Shape) (hs : s ∈ c.shapes)
      (hr : RenderedNode s node) (h : ReachL ts c) :
      ReachL ts (handleTransformEnd c node).1
  | deleteClick {ts c} (h : ReachL ts c) : ReachL ts (handleDelete c)
  | toolClick {ts c} (t : ShapeType) (h : ReachL ts c) :
      ReachL ts (selectToolClick c t)

/-- A configuration reachable by some sequence of events. -/
def Reachable (c : Cfg) : Prop := ∃ ts, ReachL ts c

/-- The shape the move handler writes while drawing: both branches of the
`type` dispatch, as one function of the in-progress shape and the pointer. -/
noncomputable def moveUpdate (ns : Shape) (p : Pos) : Shape :=
  match ns.type with
  | ShapeType.rectangle => { ns with width := p.x - ns.x, height := p.y - ns.y }
  | ShapeType.circle =>
    { ns with radius :=
        Real.sqrt ((p.x - ns.x) * (p.x - ns.x) + (p.y - ns.y) * (p.y - ns.y)) }

/-- The pointer-move phase of a draw gesture: a sequence of non-null
pointer positions folded through the move handler. -/
noncomputable def foldMoves (c : Cfg) (moves : List Pos) : Cfg :=
  moves.foldl (fun a p => (handleMouseMove a (some p)).cfg) c

/-- A complete draw gesture: pointer-down on empty canvas, a sequence of
pointer-moves, pointer-up. -/
noncomputable def drawGesture (c : Cfg) (p0 : Pos) (now : ℕ) (fill : String)
    (moves : List Pos) : Cfg :=
  handleMouseUp (foldMoves (handleMouseDown c true (some p0) now fill).cfg moves)

/-- The shape the transform-end handler writes when the node's id resolves
to shape `s` in the list: position from the node, scale folded into
absolute width/height, and into the radius for nodes with a `radius`
method. -/
noncomputable def transformUpd (s : Shape) (node : KNode) : Shape :=
  { id := s.id
    type := s.type
    x := node.x
    y := node.y
    width := |node.width * node.scaleX|
    height := |node.height * node.scaleY|
    radius := if node.hasRadius then |node.radius * node.scaleX| else 0
    fill := s.fill }

/-!
Concrete inputs used to instantiate the theorems below.
-/

/-- A pointer position at (10, 10). -/
def posA : Pos := ⟨10, 10⟩

/-- The zero-extent rectangle created at (10, 10) with timestamp 1. -/
def shapeR1 : Shape := ⟨mkId 1, ShapeType.rectangle, 10, 10, 0, 0, 0, "#abc123"⟩

/-- State after a pointer-down at (10, 10) from the initial state. -/
def cfgDown : Cfg := (handleMouseDown initCfg true (some posA) 1 "#abc123").cfg

/-- State after drawing the rectangle of `cfgDown`, releasing, and clicking
it: a reachable state with a selected shape. -/
noncomputable def cfgSel : Cfg :=
  handleShapeSelect (handleMouseUp cfgDown) (some shapeR1)

/-- The zero-extent circle created at (0, 0) with timestamp 2. -/
def shapeC1 : Shape := ⟨mkId 2, ShapeType.circle, 0, 0, 0, 0, 0, "#00ff00"⟩

/-- State after selecting the circle tool and pressing at (0, 0). -/
def cfgDownC : Cfg :=
  (handleMouseDown (selectToolClick initCfg ShapeType.circle) true
    (some ⟨0, 0⟩) 2 "#00ff00").cfg

/-- The circle of `cfgDownC` after dragging the pointer to (3, 4). -/
noncomputable def circleDrawn : Shape := moveUpdate shapeC1 ⟨3, 4⟩

/-- State after finishing the circle draw gesture of `cfgDownC`. -/
noncomputable def cfgCircle : Cfg :=
  handleMouseUp (handleMouseMove cfgDownC (some ⟨3, 4⟩)).cfg

/-- The rendered node of `circleDrawn` after a plain drag to (40, 50):
scale untouched, width and height the Konva-derived diameter. -/
noncomputable def nodeC : KNode :=
  ⟨mkId 2, 40, 50, 2 * circleDrawn.radius, 2 * circleDrawn.radius, true,
    circleDrawn.radius, 1, 1⟩

/-- State after the drag of `nodeC` ends on the drawn circle. -/
noncomputable def cfgBad : Cfg := (handleTransformEnd cfgCircle nodeC).1

/-- A second rectangle, with a different id. -/
def shapeB : Shape := ⟨mkId 2, ShapeType.rectangle, 1, 2, 3, 4, 0, "#b0b0b0"⟩

/-- A state with two shapes where the first one is selected. -/
def cfgTwo : Cfg :=
  { shapes := [shapeR1, shapeB]
    selectedShape := some shapeR1
    selectedTool := ShapeType.rectangle
    isDrawing := false
    newShape := none
    transformerNodes := [mkId 1]
    log := [] }

/-- State after a pointer-down at (0, 0) with timestamp 1. -/
def cfgD1 : Cfg := (handleMouseDown initCfg true (some ⟨0, 0⟩) 1 "#aa0000").cfg

/-- State after two pointer-downs with distinct timestamps 1 and 2. -/
def cfgD1D2 : Cfg := (handleMouseDown cfgD1 true (some ⟨1, 1⟩) 2 "#bb0000").cfg

/-- State after two pointer-downs both carrying timestamp 1: two shape
creations within the same `Date.now()` tick. -/
def cfgDup : Cfg := (handleMouseDown cfgD1 true (some ⟨1, 1⟩) 1 "#bb0000").cfg

/-- The rectangle created by the first pointer-down of `cfgD1D2`. -/
def shapeRa : Shape := ⟨mkId 1, ShapeType.rectangle, 0, 0, 0, 0, 0, "#aa0000"⟩

/-- Decimal digit list of a natural number, most significant digit first:
the normal form computed by `Nat.toDigitsCore` in base 10 (used to show the
generated ids distinct for distinct timestamps). -/
def digitsOf (n : ℕ) : List Char :=
  if h : n / 10 = 0 then [Nat.digitChar (n % 10)]
  else digitsOf (n / 10) ++ [Nat.digitChar (n % 10)]
decreasing_by omega

/-- Inverse of `Nat.digitChar` on decimal digits. -/
def decDigit (c : Char) : ℕ := c.toNat - 48

/-- Reads a most-significant-first decimal digit list back as a number. -/
def decValue (l : List Char) : ℕ := l.foldl (fun a c => 10 * a + decDigit c) 0

/-!
Injectivity of the generated id strings.  `Date.now()` is stringified with
`Nat.repr`, whose base-10 digit list is characterised by the normal form
`digitsOf` and inverted by `decValue`.
-/

theorem toDigitsCore_acc (fuel : ℕ) : ∀ (n : ℕ) (ds : List Char),
    Nat.toDigitsCore 10 fuel n ds = Nat.toDigitsCore 10 fuel n [] ++ ds := by
  induction fuel with
  | zero => intro n ds; simp [Nat.toDigitsCore]
  | succ f ih =>
    intro n ds
    by_cases h : n / 10 = 0
    · simp [Nat.toDigitsCore, h]
    · simp only [Nat.toDigitsCore, if_neg h]
      rw [ih (n / 10) (Nat.digitChar (n % 10) :: ds),
        ih (n / 10) [Nat.digitChar (n % 10)], List.append_assoc]
      rfl

theorem toDigitsCore_eq_digitsOf : ∀ (fuel n : ℕ), n < fuel →
    Nat.toDigitsCore 10 fuel n [] = digitsOf n := by
  intro fuel
  induction fuel with
  | zero => intro n h; omega
  | succ f ih =>
    intro n h
    by_cases h0 : n / 10 = 0
    · rw [digitsOf]
      simp [Nat.toDigitsCore, h0]
    · rw [digitsOf]
      simp only [Nat.toDigitsCore, if_neg h0, dif_neg h0]
      rw [toDigitsCore_acc, ih (n / 10) (by omega)]

theorem toDigits_eq_digitsOf (n : ℕ) : Nat.toDigits 10 n = digitsOf n :=
  toDigitsCore_eq_digitsOf (n + 1) n (Nat.lt_succ_self n)

theorem decDigit_digitChar : ∀ d : ℕ, d < 10 → decDigit (Nat.digitChar d) = d := by
  decide

theorem decValue_concat (l : List Char) (c : Char) :
    decValue (l ++ [c]) = 10 * decValue l + decDigit c := by
  simp [decValue, List.foldl_append]

theorem decValue_digitsOf : ∀ n : ℕ, decValue (digitsOf n) = n := by
  intro n
  induction n using Nat.strong_induction_on with
  | _ n ih =>
    rw [digitsOf]
    by_cases h : n / 10 = 0
    · rw [dif_pos h]
      have : decValue [Nat.digitChar (n % 10)] = decDigit (Nat.digitChar (n % 10)) := by
        simp [decValue, decDigit]
      rw [this, decDigit_digitChar (n % 10) (Nat.mod_lt n (by omega) )]
      omega
    · rw [dif_neg h, decValue_concat, ih (n / 10) (by omega),
        decDigit_digitChar (n % 10) (Nat.mod_lt n (by omega))]
      omega

theorem digitsOf_injective : Function.Injective digitsOf := by
  intro a b h
  have ha := decValue_digitsOf a
  rw [h, decValue_digitsOf b] at ha
  exact ha.symm

theorem natRepr_injective : Function.Injective Nat.repr := by
  intro a b h
  have hd : Nat.toDigits 10 a = Nat.toDigits 10 b := congrArg String.data h
  apply digitsOf_injective
  rw [← toDigits_eq_digitsOf, ← toDigits_eq_digitsOf]
  exact hd

theorem mkId_injective : Function.Injective mkId := by
  intro a b h
  have hd := congrArg String.data h
  simp only [mkId, String.data_append] at hd
  exact natRepr_injective (String.ext (List.append_cancel_left hd))

/-- Re-committing a shape by id never changes the id list. -/
theorem ids_map_replace (l : List Shape) (u : Shape) (i : String)
    (hu : u.id = i) :
    ((l.map fun s => if s.id == i then u else s).map Shape.id) = l.map Shape.id := by
  rw [List.map_map]
  apply List.map_congr_left
  intro a _
  simp only [Function.comp_apply]
  by_cases h : a.id = i
  · simp [h, hu]
  · simp [h]

theorem handleMouseUp_shapes (c : Cfg) : (handleMouseUp c).shapes = c.shapes := by
  unfold handleMouseUp
  split
  · split <;> rfl
  · rfl

theorem handleShapeSelect_shapes (c : Cfg) (o : Option Shape) :
    (handleShapeSelect c o).shapes = c.shapes := by
  unfold handleShapeSelect
  split
  · rfl
  · dsimp only
    split
    · split <;> rfl
    · rfl

/-- A pointer-down either leaves the shape list and in-progress shape as
they were, or appends and tracks the freshly created zero-extent shape. -/
theorem handleMouseDown_cases (c : Cfg) (onEmpty : Bool) (pos : Option Pos)
    (now : ℕ) (fill : String) :
    ((handleMouseDown c onEmpty pos now fill).cfg.shapes = c.shapes ∧
      (handleMouseDown c onEmpty pos now fill).cfg.newShape = c.newShape) ∨
    ∃ p : Pos, pos = some p ∧
      (handleMouseDown c onEmpty pos now fill).cfg.shapes =
        c.shapes ++ [⟨mkId now, c.selectedTool, p.x, p.y, 0, 0, 0, fill⟩] ∧
      (handleMouseDown c onEmpty pos now fill).cfg.newShape =
        some ⟨mkId now, c.selectedTool, p.x, p.y, 0, 0, 0, fill⟩ := by
  unfold handleMouseDown
  by_cases hg : (c.selectedShape.isSome || !onEmpty) = true
  · left
    rw [if_pos hg]
    cases onEmpty <;> exact ⟨rfl, rfl⟩
  · rw [if_neg hg]
    cases pos with
    | none =>
      left
      cases onEmpty <;> exact ⟨rfl, rfl⟩
    | some p =>
      right
      refine ⟨p, rfl, ?_, ?_⟩ <;> cases onEmpty <;> rfl

theorem handleMouseMove_ids (c : Cfg) (pos : Option Pos) :
    ((handleMouseMove c pos).cfg.shapes.map Shape.id) = c.shapes.map Shape.id := by
  unfold handleMouseMove
  split
  · rfl
  · split
    · rfl
    · split
      · rfl
      · split <;> exact ids_map_replace _ _ _ rfl

theorem handleTransformEnd_ids (c : Cfg) (node : KNode) :
    ((handleTransformEnd c node).1.shapes.map Shape.id) = c.shapes.map Shape.id := by
  unfold handleTransformEnd
  exact ids_map_replace _ _ _ rfl

/-- Invariant: the id list of the shape list is always a sublist of the ids
generated from the pointer-down timestamps, in order. -/
theorem reachL_ids_sublist {ts : List ℕ} {c : Cfg} (h : ReachL ts c) :
    (c.shapes.map Shape.id).Sublist (ts.map mkId) := by
  induction h with
  | init => simp [initCfg]
  | mouseDown onEmpty pos now fill h ih =>
    rw [List.map_append]
    rcases handleMouseDown_cases _ onEmpty pos now fill with ⟨hs, -⟩ | ⟨p, -, hs, -⟩
    · rw [hs]
      exact ih.trans (List.sublist_append_left _ _)
    · rw [hs, List.map_append]
      exact ih.append (List.Sublist.refl _)
  | mouseMove pos h ih => rw [handleMouseMove_ids]; exact ih
  | mouseUp h ih => rw [handleMouseUp_shapes]; exact ih
  | shapeClick s hs h ih => rw [handleShapeSelect_shapes]; exact ih
  | transformEnd node s hs hr h ih => rw [handleTransformEnd_ids]; exact ih
  | deleteClick h ih =>
    unfold handleDelete
    split
    · exact ih
    · exact ((List.filter_sublist _).map Shape.id).trans ih
  | toolClick t h ih => exact ih

/-- Under pairwise-distinct pointer-down timestamps, the ids of the listed
shapes are pairwise distinct in every reachable state. -/
theorem reachL_ids_pairwise {ts : List ℕ} {c : Cfg} (h : ReachL ts c)
    (hts : ts.Pairwise (· ≠ ·)) :
    ((c.shapes.map Shape.id).Pairwise (· ≠ ·)) := by
  apply List.Pairwise.sublist (reachL_ids_sublist h)
  rw [List.pairwise_map]
  exact hts.imp fun hab hmk => hab (mkId_injective hmk)

/-!
The draw gesture: what a pointer-move does while drawing, and the shape of
a whole down/moves/up gesture.
-/

theorem moveUpdate_fields (ns : Shape) (p : Pos) :
    (moveUpdate ns p).id = ns.id ∧ (moveUpdate ns p).type = ns.type ∧
    (moveUpdate ns p).x = ns.x ∧ (moveUpdate ns p).y = ns.y ∧
    (moveUpdate ns p).fill = ns.fill := by
  cases h : ns.type <;> simp [moveUpdate, h]

/-- While drawing, a pointer-move rewrites the in-progress shape with
`moveUpdate` and re-commits it into the list by id; it logs nothing and
touches no other state. -/
theorem handleMouseMove_drawing (c : Cfg) (p : Pos) (ns : Shape)
    (hd : c.isDrawing = true) (hn : c.newShape = some ns) :
    (handleMouseMove c (some p)).cfg =
      { c with
        shapes := c.shapes.map fun s => if s.id == ns.id then moveUpdate ns p else s
        newShape := some (moveUpdate ns p) } ∧
    (handleMouseMove c (some p)).threw = false := by
  unfold handleMouseMove
  rw [hd, hn]
  cases h : ns.type <;> simp [moveUpdate, h]

theorem foldMoves_nil (c : Cfg) : foldMoves c [] = c := rfl

theorem foldMoves_cons (c : Cfg) (p : Pos) (ps : List Pos) :
    foldMoves c (p :: ps) = foldMoves (handleMouseMove c (some p)).cfg ps := rfl

/-- Invariant of the move phase: drawing stays on, the in-progress shape
keeps its id, anchor, type and fill, it remains the last committed list
entry, and nothing is logged, selected, or changed elsewhere. -/
theorem foldMoves_inv (moves : List Pos) :
    ∀ (c : Cfg) (s : Shape), c.isDrawing = true → c.newShape = some s →
      c.shapes.getLast? = some s →
      ∃ s' : Shape,
        (foldMoves c moves).isDrawing = true ∧
        (foldMoves c moves).newShape = some s' ∧
        (foldMoves c moves).shapes.getLast? = some s' ∧
        (foldMoves c moves).log = c.log ∧
        (foldMoves c moves).selectedShape = c.selectedShape ∧
        (foldMoves c moves).selectedTool = c.selectedTool ∧
        s'.id = s.id ∧ s'.type = s.type ∧ s'.x = s.x ∧ s'.y = s.y ∧
        s'.fill = s.fill := by
  induction moves with
  | nil =>
    intro c s hd hn hl
    exact ⟨s, hd, hn, hl, rfl, rfl, rfl, rfl, rfl, rfl, rfl, rfl⟩
  | cons p ps ih =>
    intro c s hd hn hl
    obtain ⟨hcfg, -⟩ := handleMouseMove_drawing c p s hd hn
    rw [foldMoves_cons]
    obtain ⟨s', h1, h2, h3, h4, h5, h6, h7, h8, h9, h10, h11⟩ :=
      ih (handleMouseMove c (some p)).cfg (moveUpdate s p)
        (by rw [hcfg]; exact hd) (by rw [hcfg])
        (by rw [hcfg]
            dsimp only
            rw [List.getLast?_map, hl]
            simp)
    obtain ⟨f1, f2, f3, f4, f5⟩ := moveUpdate_fields s p
    refine ⟨s', h1, h2, h3, ?_, ?_, ?_, ?_, ?_, ?_, ?_, ?_⟩
    · rw [h4, hcfg]
    · rw [h5, hcfg]
    · rw [h6, hcfg]
    · rw [h7, f1]
    · rw [h8, f2]
    · rw [h9, f3]
    · rw [h10, f4]
    · rw [h11, f5]

/-- The shape created by a pointer-down on empty canvas with no selection:
zero extent, anchored at the pointer, id generated from the timestamp. -/
theorem handleMouseDown_creates (c : Cfg) (p : Pos) (now : ℕ) (fill : String)
    (hsel : c.selectedShape = none) :
    (handleMouseDown c true (some p) now fill).cfg =
      { c with
        selectedShape := none
        shapes := c.shapes ++ [⟨mkId now, c.selectedTool, p.x, p.y, 0, 0, 0, fill⟩]
        newShape := some ⟨mkId now, c.selectedTool, p.x, p.y, 0, 0, 0, fill⟩
        isDrawing := true } ∧
    (handleMouseDown c true (some p) now fill).threw = false := by
  unfold handleMouseDown
  rw [hsel]
  exact ⟨rfl, rfl⟩

/-- Pointer-up while drawing: logs the single "create" record for the
in-progress shape, clears the drawing state, and changes nothing else. -/
theorem handleMouseUp_drawing (c : Cfg) (ns : Shape)
    (hd : c.isDrawing = true) (hn : c.newShape = some ns) :
    handleMouseUp c =
      { c with log := c.log ++ [logShapeUpdate "create" ns]
               isDrawing := false
               newShape := none } := by
  unfold handleMouseUp
  rw [hd, hn]
  rfl

/-- A pointer-move either leaves the whole state unchanged or rewrites the
in-progress shape while drawing. -/
theorem handleMouseMove_cases (c : Cfg) (pos : Option Pos) :
    (handleMouseMove c pos).cfg = c ∨
    ∃ (ns : Shape) (p : Pos), pos = some p ∧ c.isDrawing = true ∧
      c.newShape = some ns ∧
      (handleMouseMove c pos).cfg =
        { c with
          shapes := c.shapes.map fun s => if s.id == ns.id then moveUpdate ns p else s
          newShape := some (moveUpdate ns p) } := by
  by_cases hd : c.isDrawing = true
  · cases hn : c.newShape with
    | none =>
      left
      unfold handleMouseMove
      rw [hd, hn]
      rfl
    | some ns =>
      cases pos with
      | none =>
        left
        unfold handleMouseMove
        rw [hd, hn]
        rfl
      | some p =>
        right
        refine ⟨ns, p, rfl, hd, rfl, ?_⟩
        exact (handleMouseMove_drawing c p ns hd hn).1
  · left
    unfold handleMouseMove
    rw [Bool.not_eq_true] at hd
    rw [hd]
    rfl

theorem handleMouseUp_newShape (c : Cfg) :
    (handleMouseUp c).newShape = none ∨ (handleMouseUp c).newShape = c.newShape := by
  unfold handleMouseUp
  split
  · split
    · left; rfl
    · right; rfl
  · right; rfl

theorem handleShapeSelect_newShape (c : Cfg) (o : Option Shape) :
    (handleShapeSelect c o).newShape = c.newShape := by
  unfold handleShapeSelect
  split
  · rfl
  · dsimp only
    split
    · split <;> rfl
    · rfl

theorem handleTransformEnd_newShape (c : Cfg) (node : KNode) :
    (handleTransformEnd c node).1.newShape = c.newShape := rfl

theorem handleDelete_newShape (c : Cfg) :
    (handleDelete c).newShape = c.newShape := by
  unfold handleDelete
  split <;> rfl

/-- When the node's id resolves to shape `s`, transform-end re-commits
`transformUpd s node` over every entry carrying that id. -/
theorem handleTransformEnd_shapes_form (c : Cfg) (node : KNode) (s : Shape)
    (hfind : (c.shapes.find? fun t => t.id == node.id) = some s) :
    (handleTransformEnd c node).1.shapes =
      c.shapes.map fun t => if t.id == s.id then transformUpd s node else t := by
  unfold handleTransformEnd
  rw [hfind]
  rfl

/-- Under pairwise-distinct ids, `find?` by a member's id returns exactly
that member. -/
theorem find?_id_eq_of_pairwise {l : List Shape} {s : Shape}
    (hp : (l.map Shape.id).Pairwise (· ≠ ·)) (hs : s ∈ l) :
    (l.find? fun t => t.id == s.id) = some s := by
  induction l with
  | nil => cases hs
  | cons x xs ih =>
    rw [List.map_cons, List.pairwise_cons] at hp
    rcases List.mem_cons.mp hs with rfl | hmem
    · simp [List.find?_cons]
    · have hne : x.id ≠ s.id := hp.1 s.id (List.mem_map_of_mem Shape.id hmem)
      rw [List.find?_cons]
      have : (x.id == s.id) = false := by
        simpa using hne
      rw [this]
      exact ih hp.2 hmem

theorem moveUpdate_rect (ns : Shape) (p : Pos)
    (ht : ns.type = ShapeType.rectangle) :
    moveUpdate ns p = { ns with width := p.x - ns.x, height := p.y - ns.y } := by
  simp [moveUpdate, ht]

theorem moveUpdate_circle (ns : Shape) (p : Pos)
    (ht : ns.type = ShapeType.circle) :
    moveUpdate ns p =
      { ns with radius :=
          Real.sqrt ((p.x - ns.x) * (p.x - ns.x) + (p.y - ns.y) * (p.y - ns.y)) } := by
  simp [moveUpdate, ht]

/-- While drawing a rectangle, the in-progress width and height after the
move phase come entirely from the last pointer position: pointer minus
anchor, unnormalized. -/
theorem foldMoves_rect (moves : List Pos) :
    ∀ (c : Cfg) (s : Shape) (p : Pos), c.isDrawing = true →
      c.newShape = some s → s.type = ShapeType.rectangle →
      moves.getLast? = some p →
      (foldMoves c moves).newShape =
        some { s with width := p.x - s.x, height := p.y - s.y } := by
  induction moves with
  | nil =>
    intro c s p _ _ _ hl
    simp at hl
  | cons q ps ih =>
    intro c s p hd hn ht hl
    obtain ⟨hcfg, -⟩ := handleMouseMove_drawing c q s hd hn
    rw [foldMoves_cons]
    cases ps with
    | nil =>
      have hpq : q = p := by simpa using hl
      subst hpq
      rw [foldMoves_nil, hcfg]
      dsimp only
      rw [moveUpdate_rect s q ht]
    | cons r rs =>
      have hl' : (r :: rs).getLast? = some p := by
        rw [← List.getLast?_cons_cons]
        exact hl
      have hrec := ih (handleMouseMove c (some q)).cfg (moveUpdate s q) p
        (by rw [hcfg]; exact hd)
        (by rw [hcfg])
        (by rw [moveUpdate_rect s q ht]; exact ht)
        hl'
      rw [hrec, moveUpdate_rect s q ht]

/-- Transform-end on the rendered node of a listed circle (ids distinct):
the re-committed entry keeps the circle's type and id but takes the
node-derived geometry; in particular its width and height become the
scaled diameter, not 0. -/
theorem transformEnd_circle (c : Cfg) (node : KNode) (s : Shape)
    (hmem : s ∈ c.shapes) (hr : RenderedNode s node)
    (hp : (c.shapes.map Shape.id).Pairwise (· ≠ ·))
    (ht : s.type = ShapeType.circle) :
    (handleTransformEnd c node).1.shapes =
      c.shapes.map (fun t => if t.id == s.id then transformUpd s node else t) ∧
    (transformUpd s node).type = ShapeType.circle ∧
    (transformUpd s node).id = s.id ∧
    (transformUpd s node).width = |2 * s.radius * node.scaleX| ∧
    (transformUpd s node).height = |2 * s.radius * node.scaleY| ∧
    (transformUpd s node).radius = |s.radius * node.scaleX| := by
  obtain ⟨hid, hcase⟩ := hr
  rcases hcase with ⟨hrt, -, -, -⟩ | ⟨-, hhr, hrad, hw, hh⟩
  · simp [ht] at hrt
  · have hfind : (c.shapes.find? fun t => t.id == node.id) = some s := by
      simp only [hid]
      exact find?_id_eq_of_pairwise hp hmem
    refine ⟨handleTransformEnd_shapes_form c node s hfind, ht, rfl, ?_, ?_, ?_⟩
    · show |node.width * node.scaleX| = |2 * s.radius * node.scaleX|
      rw [hw]
    · show |node.height * node.scaleY| = |2 * s.radius * node.scaleY|
      rw [hh]
    · show (if node.hasRadius = true then |node.radius * node.scaleX| else 0) =
        |s.radius * node.scaleX|
      rw [hhr, if_pos rfl, hrad]

/-- Re-committing a shape `u` over every entry carrying `u`'s own id
commutes with `find?` by any id: the first match is located in the
original list and then replaced (or kept) like every other entry. -/
theorem find?_map_replace (l : List Shape) (u : Shape) (j i : String)
    (hu : u.id = j) :
    ((l.map fun t => if t.id == j then u else t).find? fun t => t.id == i) =
      ((l.find? fun t => t.id == i).map fun t => if t.id == j then u else t) := by
  rw [List.find?_map]
  have hpred : ((fun t : Shape => t.id == i) ∘
      fun t : Shape => if t.id == j then u else t) =
      fun t : Shape => t.id == i := by
    funext t
    show ((if t.id == j then u else t).id == i) = (t.id == i)
    by_cases h : t.id = j
    · rw [if_pos (by simpa using h), hu, ← h]
    · rw [if_neg (by simpa using h)]
  rw [hpred]

/-- `find?` ignores a filter that keeps every entry the search predicate
could match. -/
theorem find?_filter_keep (l : List Shape) (p q : Shape → Bool)
    (himp : ∀ t : Shape, p t = true → q t = true) :
    ((l.filter q).find? p) = l.find? p := by
  induction l with
  | nil => rfl
  | cons x xs ih =>
    by_cases hq : q x = true
    · cases hpx : p x with
      | true => simp [List.filter_cons, hq, List.find?_cons, hpx]
      | false => simp [List.filter_cons, hq, List.find?_cons, hpx, ih]
    · have hpx : p x = false := by
        cases hpx : p x
        · rfl
        · exact absurd (himp x hpx) hq
      simp [List.filter_cons, hq, List.find?_cons, hpx, ih]

/-- `find?` looks only at the first match, so appending cannot change a
successful search. -/
theorem find?_append_of_some {l l2 : List Shape} {p : Shape → Bool}
    {b : Shape} (h : l.find? p = some b) :
    ((l ++ l2).find? p) = some b := by
  induction l with
  | nil => exact absurd h (by simp)
  | cons x xs ih =>
    rw [List.find?_cons] at h
    rw [List.cons_append, List.find?_cons]
    cases hpx : p x
    · rw [hpx] at h
      exact ih h
    · rw [hpx] at h
      exact h

/-- Invariant, with no hypothesis on the timestamps: in every reachable
state every rectangle in the list and any rectangular in-progress shape
keeps its unused radius field at 0, and whenever a listed circle has
nonzero radius, the first listed entry carrying its id is circle-typed.
The latter holds because nonzero radii are only ever written by whole-id
replacements with circle-typed shapes, so even colliding ids never pair a
rectangle-typed first entry with a nonzero-radius circle. -/
theorem reachL_shape_inv {ts : List ℕ} {c : Cfg} (h : ReachL ts c) :
    (∀ s ∈ c.shapes, s.type = ShapeType.rectangle → s.radius = 0) ∧
    (∀ s : Shape, c.newShape = some s → s.type = ShapeType.rectangle →
      s.radius = 0) ∧
    (∀ s ∈ c.shapes, s.type = ShapeType.circle → s.radius ≠ 0 →
      ∀ b : Shape, (c.shapes.find? fun t => t.id == s.id) = some b →
        b.type = ShapeType.circle) := by
  induction h with
  | init =>
    exact ⟨by simp [initCfg], by simp [initCfg], by simp [initCfg]⟩
  | mouseDown onEmpty pos now fill h ih =>
    rename_i ts1 c1
    obtain ⟨ih1, ih2, ih3⟩ := ih
    rcases handleMouseDown_cases _ onEmpty pos now fill with ⟨h1, h2⟩ | ⟨p, -, h1, h2⟩
    · rw [h1, h2]
      exact ⟨ih1, ih2, ih3⟩
    · refine ⟨?_, ?_, ?_⟩
      · rw [h1]
        intro s hs hst
        rcases List.mem_append.mp hs with hmem | hmem
        · exact ih1 s hmem hst
        · rw [List.mem_singleton.mp hmem]
      · rw [h2]
        intro s hseq _
        rw [← Option.some_inj.mp hseq]
      · rw [h1]
        intro s hs hct hrne b hb
        rcases List.mem_append.mp hs with hmem | hmem
        · have hsome : ∃ b0, (c1.shapes.find? fun t => t.id == s.id) = some b0 := by
            rcases hfo : c1.shapes.find? fun t => t.id == s.id with _ | b0
            · rw [List.find?_eq_none] at hfo
              exact absurd (by simp : (s.id == s.id) = true) (hfo s hmem)
            · exact ⟨b0, hfo⟩
          obtain ⟨b0, hb0⟩ := hsome
          rw [find?_append_of_some hb0] at hb
          rw [← Option.some_inj.mp hb]
          exact ih3 s hmem hct hrne b0 hb0
        · rw [List.mem_singleton.mp hmem] at hrne
          exact absurd rfl hrne
  | mouseMove pos h ih =>
    rename_i ts1 c1
    obtain ⟨ih1, ih2, ih3⟩ := ih
    rcases handleMouseMove_cases _ pos with h1 | ⟨ns, p, -, hd, hn, h1⟩
    · rw [h1]
      exact ⟨ih1, ih2, ih3⟩
    · have hmu : ∀ _ : (moveUpdate ns p).type = ShapeType.rectangle,
          (moveUpdate ns p).radius = 0 := by
        intro hst
        have htns : ns.type = ShapeType.rectangle := by
          rw [← (moveUpdate_fields ns p).2.1]
          exact hst
        rw [moveUpdate_rect ns p htns]
        exact ih2 ns hn htns
      refine ⟨?_, ?_, ?_⟩
      · rw [h1]
        intro s hs hst
        dsimp only at hs
        rcases List.mem_map.mp hs with ⟨t, htmem, hteq⟩
        by_cases hbt : (t.id == ns.id) = true
        · rw [hbt, if_pos rfl] at hteq
          rw [← hteq] at hst ⊢
          exact hmu hst
        · rw [Bool.not_eq_true] at hbt
          rw [hbt] at hteq
          simp only [Bool.false_eq_true, if_false] at hteq
          rw [← hteq] at hst ⊢
          exact ih1 t htmem hst
      · rw [h1]
        intro s hseq hst
        dsimp only at hseq
        rw [← Option.some_inj.mp hseq] at hst ⊢
        exact hmu hst
      · rw [h1]
        intro s hs hct hrne b hb
        dsimp only at hs hb
        rw [find?_map_replace c1.shapes (moveUpdate ns p) ns.id s.id
          (moveUpdate_fields ns p).1] at hb
        rw [Option.map_eq_some'] at hb
        obtain ⟨b1, hb1, hgb1⟩ := hb
        have hb1id : b1.id = s.id := by simpa using List.find?_some hb1
        rcases List.mem_map.mp hs with ⟨t, htmem, hteq⟩
        by_cases hbt : (t.id == ns.id) = true
        · rw [hbt, if_pos rfl] at hteq
          have hsid : s.id = ns.id := by
            rw [← hteq]
            exact (moveUpdate_fields ns p).1
          have hb1b : (b1.id == ns.id) = true := by simp [hb1id, hsid]
          rw [hb1b, if_pos rfl] at hgb1
          rw [← hgb1, hteq]
          exact hct
        · rw [Bool.not_eq_true] at hbt
          rw [hbt] at hteq
          simp only [Bool.false_eq_true, if_false] at hteq
          have hsid : s.id ≠ ns.id := by
            rw [← hteq]
            simpa using hbt
          have hb1b : (b1.id == ns.id) = false := by
            rw [hb1id]
            simpa using hsid
          rw [hb1b] at hgb1
          simp only [Bool.false_eq_true, if_false] at hgb1
          rw [← hgb1]
          exact ih3 s (hteq ▸ htmem) hct hrne b1 hb1
  | mouseUp h ih =>
    obtain ⟨ih1, ih2, ih3⟩ := ih
    refine ⟨by rw [handleMouseUp_shapes]; exact ih1, ?_, ?_⟩
    · rcases handleMouseUp_newShape _ with h1 | h1 <;> rw [h1]
      · intro s hseq
        cases hseq
      · exact ih2
    · rw [handleMouseUp_shapes]
      exact ih3
  | shapeClick s hs h ih =>
    obtain ⟨ih1, ih2, ih3⟩ := ih
    refine ⟨by rw [handleShapeSelect_shapes]; exact ih1, ?_, ?_⟩
    · rw [handleShapeSelect_newShape]
      exact ih2
    · rw [handleShapeSelect_shapes]
      exact ih3
  | transformEnd node s hmem hr hprev ih =>
    rename_i ts1 c1
    obtain ⟨ih1, ih2, ih3⟩ := ih
    have hsome : ∃ b0, (c1.shapes.find? fun t => t.id == node.id) = some b0 := by
      rcases hfo : c1.shapes.find? fun t => t.id == node.id with _ | b0
      · rw [List.find?_eq_none] at hfo
        exact absurd (by simp [hr.1] : (s.id == node.id) = true) (hfo s hmem)
      · exact ⟨b0, hfo⟩
    obtain ⟨b0, hfo⟩ := hsome
    have hform := handleTransformEnd_shapes_form c1 node b0 hfo
    have hurad : (transformUpd b0 node).type = ShapeType.rectangle →
        (transformUpd b0 node).radius = 0 := by
      intro hurt
      show (if node.hasRadius = true then |node.radius * node.scaleX| else 0) = 0
      cases hhr : node.hasRadius
      · rfl
      · rcases hr.2 with ⟨-, hhr2, -, -⟩ | ⟨hct2, -, hrad2, -, -⟩
        · rw [hhr] at hhr2
          cases hhr2
        · by_cases hrs : s.radius = 0
          · rw [if_pos rfl, hrad2, hrs]
            simp
          · have hfo' : (c1.shapes.find? fun t => t.id == s.id) = some b0 := by
              rw [← hr.1]
              exact hfo
            have hb0c := ih3 s hmem hct2 hrs b0 hfo'
            have hurt' : b0.type = ShapeType.rectangle := hurt
            rw [hb0c] at hurt'
            cases hurt'
    refine ⟨?_, ?_, ?_⟩
    · rw [hform]
      intro v hv hvt
      rcases List.mem_map.mp hv with ⟨t, htmem, hteq⟩
      by_cases hbt : (t.id == b0.id) = true
      · rw [hbt, if_pos rfl] at hteq
        rw [← hteq] at hvt ⊢
        exact hurad hvt
      · rw [Bool.not_eq_true] at hbt
        rw [hbt] at hteq
        simp only [Bool.false_eq_true, if_false] at hteq
        rw [← hteq] at hvt ⊢
        exact ih1 t htmem hvt
    · rw [handleTransformEnd_newShape]
      exact ih2
    · rw [hform]
      intro v hv hct hrne b hb
      rw [find?_map_replace c1.shapes (transformUpd b0 node) b0.id v.id rfl] at hb
      rw [Option.map_eq_some'] at hb
      obtain ⟨b1, hb1, hgb1⟩ := hb
      have hb1id : b1.id = v.id := by simpa using List.find?_some hb1
      rcases List.mem_map.mp hv with ⟨t, htmem, hteq⟩
      by_cases hbt : (t.id == b0.id) = true
      · rw [hbt, if_pos rfl] at hteq
        have hvid : v.id = b0.id := by
          rw [← hteq]
          rfl
        have hb1b : (b1.id == b0.id) = true := by simp [hb1id, hvid]
        rw [hb1b, if_pos rfl] at hgb1
        rw [← hgb1, hteq]
        exact hct
      · rw [Bool.not_eq_true] at hbt
        rw [hbt] at hteq
        simp only [Bool.false_eq_true, if_false] at hteq
        have hvid : v.id ≠ b0.id := by
          rw [← hteq]
          simpa using hbt
        have hb1b : (b1.id == b0.id) = false := by
          rw [hb1id]
          simpa using hvid
        rw [hb1b] at hgb1
        simp only [Bool.false_eq_true, if_false] at hgb1
        rw [← hgb1]
        exact ih3 v (hteq ▸ htmem) hct hrne b1 hb1
  | deleteClick h ih =>
    rename_i ts1 c1
    obtain ⟨ih1, ih2, ih3⟩ := ih
    rcases hsel : c1.selectedShape with _ | sel
    · have hdel0 : handleDelete c1 = c1 := by
        unfold handleDelete
        rw [hsel]
      rw [hdel0]
      exact ⟨ih1, ih2, ih3⟩
    · have hdel : handleDelete c1 =
          { c1 with log := c1.log ++ [logShapeUpdate "delete" sel]
                    shapes := c1.shapes.filter fun t => !(t.id == sel.id)
                    selectedShape := none
                    transformerNodes := [] } := by
        unfold handleDelete
        rw [hsel]
      rw [hdel]
      refine ⟨?_, ?_, ?_⟩
      · intro v hv hvt
        exact ih1 v (List.mem_of_mem_filter hv) hvt
      · intro v hveq
        exact ih2 v hveq
      · intro v hv hct hrne b hb
        have hvne : (v.id == sel.id) = false := by
          simpa using (List.mem_filter.mp hv).2
        have himp : ∀ t : Shape, (t.id == v.id) = true →
            (!(t.id == sel.id)) = true := by
          intro t hpt
          have htv : t.id = v.id := by simpa using hpt
          rw [htv, hvne]
          rfl
        rw [find?_filter_keep c1.shapes _ _ himp] at hb
        exact ih3 v (List.mem_of_mem_filter hv) hct hrne b hb
  | toolClick t h ih =>
    exact ih

/-!
Handler facts used by the error-handling claim.
-/

theorem handleDelete_noSel (c : Cfg) (h : c.selectedShape = none) :
    handleDelete c = c := by
  unfold handleDelete
  rw [h]

theorem handleMouseMove_notDrawing (c : Cfg) (pos : Option Pos)
    (h : c.isDrawing = false) :
    handleMouseMove c pos = ⟨c, false⟩ := by
  unfold handleMouseMove
  rw [h]
  rfl

theorem handleMouseMove_noNewShape (c : Cfg) (pos : Option Pos)
    (h : c.newShape = none) :
    handleMouseMove c pos = ⟨c, false⟩ := by
  unfold handleMouseMove
  rw [h]
  split <;> rfl

theorem handleMouseMove_nullPos_drawing (c : Cfg) (ns : Shape)
    (hd : c.isDrawing = true) (hn : c.newShape = some ns) :
    handleMouseMove c none = ⟨c, true⟩ := by
  unfold handleMouseMove
  rw [hd, hn]
  rfl

theorem handleMouseDown_notEmpty (c : Cfg) (pos : Option Pos) (now : ℕ)
    (fill : String) :
    handleMouseDown c false pos now fill = ⟨c, false⟩ := by
  unfold handleMouseDown
  have hg : (c.selectedShape.isSome || !false) = true := by simp
  rw [if_pos hg]
  rfl

theorem mouseDown_nullPos_noSel (c : Cfg) (now : ℕ) (fill : String)
    (h : c.selectedShape = none) :
    (handleMouseDown c true none now fill).cfg = c ∧
    (handleMouseDown c true none now fill).threw = true := by
  unfold handleMouseDown
  rw [h]
  refine ⟨?_, rfl⟩
  exact Cfg.ext rfl h.symm rfl rfl rfl rfl rfl

/-- On an empty-canvas press with a selection, the handler clears the
selection and empties the mounted transformer's node set, and changes
nothing else; in particular it never dereferences the pointer position. -/
theorem mouseDown_onEmpty_selected (c : Cfg) (sel : Shape)
    (h : c.selectedShape = some sel) (pos : Option Pos) (now : ℕ)
    (fill : String) :
    (handleMouseDown c true pos now fill).cfg =
      { c with selectedShape := none, transformerNodes := [] } ∧
    (handleMouseDown c true pos now fill).threw = false := by
  unfold handleMouseDown
  rw [h]
  exact ⟨rfl, rfl⟩

/-!
The claims: one theorem per claim, with a counterexample where the claim
fails on the code and a concrete witness wherever a theorem has
hypotheses.
-/

/-- Claim C1: a completed draw gesture — pointer-down on empty canvas with
no selection, zero or more pointer-moves, pointer-up — logs exactly one
event for the created shape; it is tagged "create", it is emitted only at
the pointer-up transition (the log is untouched through the down and move
phases), and its numeric fields are the shape's final geometry rounded
with JS `Math.round`. -/
theorem claim1 (c : Cfg) (p0 : Pos) (now : ℕ) (fill : String)
    (moves : List Pos) (hsel : c.selectedShape = none) :
    ∃ s : Shape,
      (foldMoves (handleMouseDown c true (some p0) now fill).cfg moves).log =
        c.log ∧
      (drawGesture c p0 now fill moves).log =
        c.log ++ [logShapeUpdate "create" s] ∧
      (drawGesture c p0 now fill moves).shapes.getLast? = some s ∧
      s.id = mkId now ∧
      (logShapeUpdate "create" s).action = "create" ∧
      (logShapeUpdate "create" s).x = roundJS s.x ∧
      (logShapeUpdate "create" s).y = roundJS s.y ∧
      (logShapeUpdate "create" s).width = roundJS s.width ∧
      (logShapeUpdate "create" s).height = roundJS s.height ∧
      (logShapeUpdate "create" s).radius = roundJS s.radius := by
  obtain ⟨hcfg, -⟩ := handleMouseDown_creates c p0 now fill hsel
  obtain ⟨s', h1, h2, h3, h4, -, -, hid, -, -, -, -⟩ :=
    foldMoves_inv moves (handleMouseDown c true (some p0) now fill).cfg
      ⟨mkId now, c.selectedTool, p0.x, p0.y, 0, 0, 0, fill⟩
      (by rw [hcfg]) (by rw [hcfg])
      (by rw [hcfg]; exact List.getLast?_concat _)
  refine ⟨s', ?_, ?_, ?_, hid, rfl, rfl, rfl, rfl, rfl, rfl⟩
  · rw [h4, hcfg]
  · unfold drawGesture
    rw [handleMouseUp_drawing _ s' h1 h2]
    dsimp only
    rw [h4, hcfg]
  · unfold drawGesture
    rw [handleMouseUp_drawing _ s' h1 h2]
    exact h3

/-- Witness for C1: the gesture (10,10) → (50,80) on the initial state
logs exactly the one "create" record of the committed shape. -/
theorem claim1_witness :
    initCfg.selectedShape = none ∧
    ∃ s : Shape,
      (foldMoves (handleMouseDown initCfg true (some posA) 1 "#abc123").cfg
        [⟨50, 80⟩]).log = initCfg.log ∧
      (drawGesture initCfg posA 1 "#abc123" [⟨50, 80⟩]).log =
        initCfg.log ++ [logShapeUpdate "create" s] ∧
      (drawGesture initCfg posA 1 "#abc123" [⟨50, 80⟩]).shapes.getLast? =
        some s ∧
      s.id = mkId 1 :=
  ⟨rfl, (claim1 initCfg posA 1 "#abc123" [⟨50, 80⟩] rfl).imp
    fun _ h => ⟨h.1, h.2.1, h.2.2.1, h.2.2.2.1⟩⟩

/-- Claim C2: while drawing, a pointer-move sets the in-progress
rectangle's width and height to the offsets of the pointer from the
shape's anchor, and the in-progress circle's radius to the Euclidean
distance from the anchor to the pointer. -/
theorem claim2 (c : Cfg) (p : Pos) (ns : Shape)
    (hd : c.isDrawing = true) (hn : c.newShape = some ns) :
    (ns.type = ShapeType.rectangle →
      (handleMouseMove c (some p)).cfg.newShape =
        some { ns with width := p.x - ns.x, height := p.y - ns.y }) ∧
    (ns.type = ShapeType.circle →
      (handleMouseMove c (some p)).cfg.newShape =
        some { ns with radius := Real.sqrt ((p.x - ns.x) * (p.x - ns.x) + (p.y - ns.y) * (p.y - ns.y)) }) := by
  obtain ⟨hcfg, -⟩ := handleMouseMove_drawing c p ns hd hn
  constructor <;> intro ht <;> rw [hcfg]
  · rw [moveUpdate_rect ns p ht]
  · rw [moveUpdate_circle ns p ht]

/-- Witness for C2: a rectangle drawn from (10,10) to (50,80) gets
width 40 and height 70, and a circle drawn from (0,0) to (3,4) gets
radius 5. -/
theorem claim2_witness :
    (cfgDown.isDrawing = true ∧ cfgDown.newShape = some shapeR1 ∧
      ∃ nsr : Shape,
        (handleMouseMove cfgDown (some ⟨50, 80⟩)).cfg.newShape = some nsr ∧
        nsr.width = 40 ∧ nsr.height = 70) ∧
    (cfgDownC.isDrawing = true ∧ cfgDownC.newShape = some shapeC1 ∧
      ∃ nsc : Shape,
        (handleMouseMove cfgDownC (some ⟨3, 4⟩)).cfg.newShape = some nsc ∧
        nsc.radius = 5 ∧ nsc.width = 0 ∧ nsc.height = 0) := by
  refine ⟨⟨rfl, rfl, ?_⟩, ⟨rfl, rfl, ?_⟩⟩
  · refine ⟨_, (claim2 cfgDown ⟨50, 80⟩ shapeR1 rfl rfl).1 rfl, ?_, ?_⟩
    · show (50 : ℝ) - 10 = 40
      norm_num
    · show (80 : ℝ) - 10 = 70
      norm_num
  · refine ⟨_, (claim2 cfgDownC ⟨3, 4⟩ shapeC1 rfl rfl).2 rfl, ?_, rfl, rfl⟩
    show Real.sqrt (((3 : ℝ) - 0) * ((3 : ℝ) - 0) +
      ((4 : ℝ) - 0) * ((4 : ℝ) - 0)) = 5
    rw [show ((3 : ℝ) - 0) * ((3 : ℝ) - 0) + ((4 : ℝ) - 0) * ((4 : ℝ) - 0) =
      5 ^ 2 by norm_num]
    exact Real.sqrt_sq (by norm_num)

/-- Claim C3: with a selected shape, delete removes exactly the entries
carrying the selected id — every shape with a different id remains, in
order and unchanged — logs exactly one "delete" event for the selected
shape, and clears the selection. -/
theorem claim3 (c : Cfg) (sel : Shape) (h : c.selectedShape = some sel) :
    (handleDelete c).shapes = c.shapes.filter (fun t => !(t.id == sel.id)) ∧
    (∀ t ∈ c.shapes, t.id ≠ sel.id → t ∈ (handleDelete c).shapes) ∧
    (∀ t ∈ (handleDelete c).shapes, t.id ≠ sel.id) ∧
    (handleDelete c).selectedShape = none ∧
    (handleDelete c).log = c.log ++ [logShapeUpdate "delete" sel] ∧
    (logShapeUpdate "delete" sel).action = "delete" := by
  unfold handleDelete
  rw [h]
  refine ⟨rfl, ?_, ?_, rfl, rfl, rfl⟩
  · intro t ht hne
    rw [List.mem_filter]
    exact ⟨ht, by simpa using hne⟩
  · intro t ht
    rw [List.mem_filter] at ht
    simpa using ht.2

/-- Witness for C3: deleting the selected first of two shapes keeps
exactly the second and clears the selection. -/
theorem claim3_witness :
    cfgTwo.selectedShape = some shapeR1 ∧
    (handleDelete cfgTwo).selectedShape = none ∧
    (handleDelete cfgTwo).shapes =
      cfgTwo.shapes.filter (fun t => !(t.id == shapeR1.id)) ∧
    shapeB ∈ (handleDelete cfgTwo).shapes :=
  ⟨rfl, (claim3 cfgTwo shapeR1 rfl).2.2.2.1, (claim3 cfgTwo shapeR1 rfl).1,
    (claim3 cfgTwo shapeR1 rfl).2.1 shapeB (List.mem_cons_of_mem _
      (List.mem_cons_self _ _)) (by decide)⟩

/-- Claim C5: in a state with a selected shape, a click on empty canvas
clears the selection and empties the transform handle's node set, without
error. -/
theorem claim5 (c : Cfg) (sel : Shape) (h : c.selectedShape = some sel)
    (pos : Option Pos) (now : ℕ) (fill : String) :
    (handleMouseDown c true pos now fill).cfg.selectedShape = none ∧
    (handleMouseDown c true pos now fill).cfg.transformerNodes = [] ∧
    (handleMouseDown c true pos now fill).threw = false := by
  obtain ⟨hcfg, hthrew⟩ := mouseDown_onEmpty_selected c sel h pos now fill
  rw [hcfg]
  exact ⟨rfl, rfl, hthrew⟩

/-- Witness for C5: clicking empty canvas in the reachable selected state
`cfgSel` clears the selection and detaches the transformer. -/
theorem claim5_witness :
    cfgSel.selectedShape = some shapeR1 ∧
    (handleMouseDown cfgSel true (some ⟨200, 200⟩) 9 "#ffffff").cfg.selectedShape
      = none ∧
    (handleMouseDown cfgSel true (some ⟨200, 200⟩) 9 "#ffffff").cfg.transformerNodes
      = [] :=
  ⟨rfl, (claim5 cfgSel shapeR1 rfl (some ⟨200, 200⟩) 9 "#ffffff").1,
    (claim5 cfgSel shapeR1 rfl (some ⟨200, 200⟩) 9 "#ffffff").2.1⟩

/-- Counterexample to claim C6 as stated: in the reachable state `cfgSel`
a shape is selected, yet a pointer-down on empty canvas changes the
selection (it clears it), so the pointer-down is not a no-op on the
selection. -/
theorem claim6_counterexample :
    Reachable cfgSel ∧ cfgSel.selectedShape = some shapeR1 ∧
    (handleMouseDown cfgSel true (some ⟨150, 150⟩) 9 "#00ff11").cfg.selectedShape
      ≠ cfgSel.selectedShape := by
  refine ⟨⟨[1], ?_⟩, rfl, ?_⟩
  · have hmem : shapeR1 ∈ (handleMouseUp cfgDown).shapes := by
      rw [handleMouseUp_shapes]
      exact List.mem_singleton_self shapeR1
    exact ReachL.shapeClick shapeR1 hmem
      (ReachL.mouseUp (ReachL.mouseDown true (some posA) 1 "#abc123" ReachL.init))
  · rw [(mouseDown_onEmpty_selected cfgSel shapeR1 rfl (some ⟨150, 150⟩) 9
      "#00ff11").1]
    intro hcontr
    exact Option.noConfusion (hcontr : (none : Option Shape) = some shapeR1)

/-- Claim C6, amended: while a shape is selected, a pointer-down never
creates a shape, never logs, and leaves the list, the drawing flag, the
tool and the in-progress shape unchanged; the selection and the handle's
node set are unchanged when the press is on a shape, but are cleared and
emptied when the press is on empty canvas. -/
theorem claim6_amended (c : Cfg) (sel : Shape) (h : c.selectedShape = some sel)
    (onEmpty : Bool) (pos : Option Pos) (now : ℕ) (fill : String) :
    (handleMouseDown c onEmpty pos now fill).cfg.shapes = c.shapes ∧
    (handleMouseDown c onEmpty pos now fill).cfg.isDrawing = c.isDrawing ∧
    (handleMouseDown c onEmpty pos now fill).cfg.selectedTool = c.selectedTool ∧
    (handleMouseDown c onEmpty pos now fill).cfg.newShape = c.newShape ∧
    (handleMouseDown c onEmpty pos now fill).cfg.log = c.log ∧
    (handleMouseDown c onEmpty pos now fill).threw = false ∧
    (handleMouseDown c onEmpty pos now fill).cfg.selectedShape =
      (if onEmpty then none else c.selectedShape) ∧
    (handleMouseDown c onEmpty pos now fill).cfg.transformerNodes =
      (if onEmpty then [] else c.transformerNodes) := by
  cases onEmpty with
  | false =>
    rw [handleMouseDown_notEmpty c pos now fill]
    exact ⟨rfl, rfl, rfl, rfl, rfl, rfl, rfl, rfl⟩
  | true =>
    obtain ⟨hcfg, hthrew⟩ := mouseDown_onEmpty_selected c sel h pos now fill
    rw [hcfg]
    exact ⟨rfl, rfl, rfl, rfl, rfl, hthrew, rfl, rfl⟩

/-- Witness for the amended C6: a pointer-down on a shape (not on empty
canvas) while `cfgSel`'s shape is selected changes nothing at all. -/
theorem claim6_witness :
    cfgSel.selectedShape = some shapeR1 ∧
    (handleMouseDown cfgSel false none 9 "#123456").cfg.shapes =
      cfgSel.shapes ∧
    (handleMouseDown cfgSel false none 9 "#123456").cfg.selectedShape =
      cfgSel.selectedShape ∧
    (handleMouseDown cfgSel false none 9 "#123456").cfg.log = cfgSel.log ∧
    (handleMouseDown cfgSel false none 9 "#123456").threw = false :=
  ⟨rfl, (claim6_amended cfgSel shapeR1 rfl false none 9 "#123456").1,
    (claim6_amended cfgSel shapeR1 rfl false none 9 "#123456").2.2.2.2.2.2.1,
    (claim6_amended cfgSel shapeR1 rfl false none 9 "#123456").2.2.2.2.1,
    (claim6_amended cfgSel shapeR1 rfl false none 9 "#123456").2.2.2.2.2.1⟩

/-- Claim C8: the transform-end handler (also installed as the drag-end
handler) always writes 1 back into the node's scaleX and scaleY, so scale
never compounds across transforms. -/
theorem claim8 (c : Cfg) (node : KNode) :
    (handleTransformEnd c node).2.scaleX = 1 ∧
    (handleTransformEnd c node).2.scaleY = 1 :=
  ⟨rfl, rfl⟩

/-- Counterexample to claim C4 as stated: a circle is drawn to radius 5
and then merely dragged (scale 1); the drag-end handler rewrites its list
entry's width and height from the node, whose Konva width is the diameter,
so the reachable state `cfgBad` holds a circle with width 10 ≠ 0. -/
theorem claim4_counterexample :
    Reachable cfgBad ∧
    ∃ s ∈ cfgBad.shapes, s.type = ShapeType.circle ∧ s.width ≠ 0 := by
  have hr5 : circleDrawn.radius = 5 := by
    show Real.sqrt (((3 : ℝ) - 0) * ((3 : ℝ) - 0) +
      ((4 : ℝ) - 0) * ((4 : ℝ) - 0)) = 5
    rw [show ((3 : ℝ) - 0) * ((3 : ℝ) - 0) + ((4 : ℝ) - 0) * ((4 : ℝ) - 0) =
      5 ^ 2 by norm_num]
    exact Real.sqrt_sq (by norm_num)
  constructor
  · refine ⟨[2], ?_⟩
    have hmem : circleDrawn ∈ cfgCircle.shapes :=
      List.mem_singleton_self circleDrawn
    have hren : RenderedNode circleDrawn nodeC :=
      ⟨rfl, Or.inr ⟨rfl, rfl, rfl, rfl, rfl⟩⟩
    exact ReachL.transformEnd nodeC circleDrawn hmem hren
      (ReachL.mouseUp (ReachL.mouseMove (some ⟨3, 4⟩)
        (ReachL.mouseDown true (some ⟨0, 0⟩) 2 "#00ff00"
          (ReachL.toolClick ShapeType.circle ReachL.init))))
  · refine ⟨transformUpd circleDrawn nodeC,
      List.mem_singleton_self (transformUpd circleDrawn nodeC), rfl, ?_⟩
    show |nodeC.width * nodeC.scaleX| ≠ 0
    show |2 * circleDrawn.radius * 1| ≠ 0
    rw [hr5]
    norm_num

/-- Claim C4, amended: in every reachable state — with no hypothesis on
the timestamps — every rectangle keeps radius = 0; a freshly created
shape has width = height = radius = 0 and drawing a circle touches only
its radius; but a transform/drag-end on a rendered circle rewrites its
entry's width and height to the scaled diameter |2·r·scale| instead of
keeping them 0. -/
theorem claim4_amended :
    (∀ c : Cfg, Reachable c →
      ∀ s ∈ c.shapes, s.type = ShapeType.rectangle → s.radius = 0) ∧
    (∀ (c : Cfg) (p : Pos) (now : ℕ) (fill : String), c.selectedShape = none →
      (handleMouseDown c true (some p) now fill).cfg.newShape =
        some ⟨mkId now, c.selectedTool, p.x, p.y, 0, 0, 0, fill⟩) ∧
    (∀ (c : Cfg) (p : Pos) (ns : Shape), c.isDrawing = true →
      c.newShape = some ns → ns.type = ShapeType.circle →
      (handleMouseMove c (some p)).cfg.newShape = some (moveUpdate ns p) ∧
      (moveUpdate ns p).width = ns.width ∧
      (moveUpdate ns p).height = ns.height) ∧
    (∀ (c : Cfg) (node : KNode) (s : Shape), s ∈ c.shapes →
      RenderedNode s node → ((c.shapes.map Shape.id).Pairwise (· ≠ ·)) →
      s.type = ShapeType.circle →
      (handleTransformEnd c node).1.shapes =
        c.shapes.map (fun t => if t.id == s.id then transformUpd s node else t) ∧
      (transformUpd s node).type = ShapeType.circle ∧
      (transformUpd s node).id = s.id ∧
      (transformUpd s node).width = |2 * s.radius * node.scaleX| ∧
      (transformUpd s node).height = |2 * s.radius * node.scaleY| ∧
      (transformUpd s node).radius = |s.radius * node.scaleX|) := by
  refine ⟨?_, ?_, ?_, ?_⟩
  · intro c hc
    obtain ⟨ts, h⟩ := hc
    exact (reachL_shape_inv h).1
  · intro c p now fill hsel
    rw [(handleMouseDown_creates c p now fill hsel).1]
  · intro c p ns hd hn ht
    refine ⟨?_, ?_, ?_⟩
    · rw [(handleMouseMove_drawing c p ns hd hn).1]
    · rw [moveUpdate_circle ns p ht]
    · rw [moveUpdate_circle ns p ht]
  · intro c node s hmem hr hp ht
    exact transformEnd_circle c node s hmem hr hp ht

/-- Witness for the amended C4: the rectangle created first in the
reachable state `cfgD1D2` has radius 0. -/
theorem claim4_witness :
    Reachable cfgD1D2 ∧ shapeRa ∈ cfgD1D2.shapes ∧
    shapeRa.type = ShapeType.rectangle ∧ shapeRa.radius = 0 := by
  have hre : Reachable cfgD1D2 :=
    ⟨[1, 2], ReachL.mouseDown true (some ⟨1, 1⟩) 2 "#bb0000"
      (ReachL.mouseDown true (some ⟨0, 0⟩) 1 "#aa0000" ReachL.init)⟩
  have hmem : shapeRa ∈ cfgD1D2.shapes := List.mem_cons_self _ _
  exact ⟨hre, hmem, rfl, claim4_amended.1 cfgD1D2 hre shapeRa hmem rfl⟩

/-- Counterexample to claim C7 as stated: two pointer-downs inside the
same `Date.now()` tick (timestamp 5 twice) reach a state whose two shapes
carry the same id, so the ids are not pairwise distinct. -/
theorem claim7_counterexample :
    Reachable cfgDup ∧
    ¬ ((cfgDup.shapes.map Shape.id).Pairwise (· ≠ ·)) := by
  constructor
  · exact ⟨[1, 1], ReachL.mouseDown true (some ⟨1, 1⟩) 1 "#bb0000"
      (ReachL.mouseDown true (some ⟨0, 0⟩) 1 "#aa0000" ReachL.init)⟩
  · have hids : cfgDup.shapes.map Shape.id = ["shape-1", "shape-1"] := rfl
    rw [hids]
    decide

/-- Claim C7, amended: in every state reachable by a sequence of events
whose pointer-down timestamps are pairwise distinct, the ids of the listed
shapes are pairwise distinct. -/
theorem claim7_amended (ts : List ℕ) (c : Cfg) (h : ReachL ts c)
    (hts : ts.Pairwise (· ≠ ·)) :
    (c.shapes.map Shape.id).Pairwise (· ≠ ·) :=
  reachL_ids_pairwise h hts

/-- Witness for the amended C7: two creations at the distinct timestamps
1 and 2 leave pairwise-distinct ids. -/
theorem claim7_witness :
    ReachL [1, 2] cfgD1D2 ∧ (([1, 2] : List ℕ).Pairwise (· ≠ ·)) ∧
    ((cfgD1D2.shapes.map Shape.id).Pairwise (· ≠ ·)) := by
  have hre : ReachL [1, 2] cfgD1D2 :=
    ReachL.mouseDown true (some ⟨1, 1⟩) 2 "#bb0000"
      (ReachL.mouseDown true (some ⟨0, 0⟩) 1 "#aa0000" ReachL.init)
  exact ⟨hre, by decide, claim7_amended [1, 2] cfgD1D2 hre (by decide)⟩

/-- Counterexample to claim C9 as stated: in the reachable drawing state
`cfgDown`, a pointer-move whose pointer position is absent dereferences
`null` and raises a TypeError instead of degrading to a silent no-op. -/
theorem claim9_counterexample :
    Reachable cfgDown ∧ cfgDown.isDrawing = true ∧
    cfgDown.newShape = some shapeR1 ∧
    (handleMouseMove cfgDown none).threw = true := by
  refine ⟨⟨[1], ReachL.mouseDown true (some posA) 1 "#abc123" ReachL.init⟩,
    rfl, rfl, ?_⟩
  rw [handleMouseMove_nullPos_drawing cfgDown shapeR1 rfl rfl]

/-- Claim C9, amended: delete with no selection is an error-free no-op;
a pointer-move with an absent position is an error-free no-op unless a
draw is in progress, in which case it throws with the state unchanged;
a pointer-down not on empty canvas is an error-free no-op, while a
pointer-down on empty canvas with no selection and an absent position
throws after leaving the state unchanged. -/
theorem claim9_amended :
    (∀ c : Cfg, c.selectedShape = none → handleDelete c = c) ∧
    (∀ (c : Cfg) (pos : Option Pos), c.isDrawing = false →
      handleMouseMove c pos = ⟨c, false⟩) ∧
    (∀ (c : Cfg) (pos : Option Pos), c.newShape = none →
      handleMouseMove c pos = ⟨c, false⟩) ∧
    (∀ (c : Cfg) (ns : Shape), c.isDrawing = true → c.newShape = some ns →
      handleMouseMove c none = ⟨c, true⟩) ∧
    (∀ (c : Cfg) (pos : Option Pos) (now : ℕ) (fill : String),
      handleMouseDown c false pos now fill = ⟨c, false⟩) ∧
    (∀ (c : Cfg) (now : ℕ) (fill : String), c.selectedShape = none →
      (handleMouseDown c true none now fill).cfg = c ∧
      (handleMouseDown c true none now fill).threw = true) :=
  ⟨handleDelete_noSel, handleMouseMove_notDrawing, handleMouseMove_noNewShape,
    handleMouseMove_nullPos_drawing, handleMouseDown_notEmpty,
    mouseDown_nullPos_noSel⟩

/-- Witness for the amended C9: on the initial state, delete and a
position-less pointer-move are error-free no-ops, while a position-less
pointer-down on empty canvas throws with the state unchanged. -/
theorem claim9_witness :
    initCfg.selectedShape = none ∧ handleDelete initCfg = initCfg ∧
    initCfg.isDrawing = false ∧
    handleMouseMove initCfg none = ⟨initCfg, false⟩ ∧
    (handleMouseDown initCfg true none 3 "#dddddd").cfg = initCfg ∧
    (handleMouseDown initCfg true none 3 "#dddddd").threw = true :=
  ⟨rfl, claim9_amended.1 initCfg rfl, rfl,
    claim9_amended.2.1 initCfg none rfl,
    (claim9_amended.2.2.2.2.2 initCfg 3 "#dddddd" rfl).1,
    (claim9_amended.2.2.2.2.2 initCfg 3 "#dddddd" rfl).2⟩

/-- Claim C10: a rectangle draw gesture whose pointer ends left of or
above the anchor commits a shape with the raw offsets — negative width
and/or height, not normalized — and the "create" record carries those
values rounded. -/
theorem claim10 (c : Cfg) (p0 : Pos) (now : ℕ) (fill : String)
    (moves : List Pos) (p : Pos) (hsel : c.selectedShape = none)
    (htool : c.selectedTool = ShapeType.rectangle)
    (hlast : moves.getLast? = some p) :
    ∃ s : Shape,
      (drawGesture c p0 now fill moves).shapes.getLast? = some s ∧
      (drawGesture c p0 now fill moves).log =
        c.log ++ [logShapeUpdate "create" s] ∧
      s.type = ShapeType.rectangle ∧
      s.width = p.x - p0.x ∧ s.height = p.y - p0.y ∧
      (p.x < p0.x → s.width < 0) ∧ (p.y < p0.y → s.height < 0) ∧
      (logShapeUpdate "create" s).width = roundJS s.width ∧
      (logShapeUpdate "create" s).height = roundJS s.height := by
  obtain ⟨hcfg, -⟩ := handleMouseDown_creates c p0 now fill hsel
  have hd1 : (handleMouseDown c true (some p0) now fill).cfg.isDrawing = true := by
    rw [hcfg]
  have hn1 : (handleMouseDown c true (some p0) now fill).cfg.newShape =
      some ⟨mkId now, c.selectedTool, p0.x, p0.y, 0, 0, 0, fill⟩ := by
    rw [hcfg]
  have hl1 : (handleMouseDown c true (some p0) now fill).cfg.shapes.getLast? =
      some ⟨mkId now, c.selectedTool, p0.x, p0.y, 0, 0, 0, fill⟩ := by
    rw [hcfg]
    exact List.getLast?_concat _
  obtain ⟨s', h1, h2, h3, h4, -, -, -, -, -, -, -⟩ :=
    foldMoves_inv moves (handleMouseDown c true (some p0) now fill).cfg
      ⟨mkId now, c.selectedTool, p0.x, p0.y, 0, 0, 0, fill⟩ hd1 hn1 hl1
  have hrect := foldMoves_rect moves (handleMouseDown c true (some p0) now fill).cfg
      ⟨mkId now, c.selectedTool, p0.x, p0.y, 0, 0, 0, fill⟩ p hd1 hn1 htool hlast
  have hseq : s' = { (⟨mkId now, c.selectedTool, p0.x, p0.y, 0, 0, 0, fill⟩ : Shape) with
      width := p.x - p0.x, height := p.y - p0.y } :=
    Option.some_inj.mp (h2.symm.trans hrect)
  refine ⟨s', ?_, ?_, ?_, ?_, ?_, ?_, ?_, rfl, rfl⟩
  · unfold drawGesture
    rw [handleMouseUp_drawing _ s' h1 h2]
    exact h3
  · unfold drawGesture
    rw [handleMouseUp_drawing _ s' h1 h2]
    dsimp only
    rw [h4, hcfg]
  · rw [hseq]
    exact htool
  · rw [hseq]
  · rw [hseq]
  · intro hx
    rw [hseq]
    show p.x - p0.x < 0
    linarith
  · intro hy
    rw [hseq]
    show p.y - p0.y < 0
    linarith

/-- Witness for C10: drawing from anchor (10,10) to (4,6) commits
width −6 and height −4, and the logged width is the rounded −6. -/
theorem claim10_witness :
    initCfg.selectedShape = none ∧
    initCfg.selectedTool = ShapeType.rectangle ∧
    (([⟨4, 6⟩] : List Pos).getLast? = some ⟨4, 6⟩) ∧
    (∃ s : Shape,
      (drawGesture initCfg ⟨10, 10⟩ 1 "#abc123" [⟨4, 6⟩]).shapes.getLast? =
        some s ∧
      s.width = (4 : ℝ) - 10 ∧ s.width < 0 ∧
      (logShapeUpdate "create" s).width = roundJS s.width) ∧
    roundJS ((4 : ℝ) - 10) = -6 := by
  refine ⟨rfl, rfl, rfl, ?_, ?_⟩
  · obtain ⟨s, h1, -, -, h4, -, h6, -, h8, -⟩ :=
      claim10 initCfg ⟨10, 10⟩ 1 "#abc123" [⟨4, 6⟩] ⟨4, 6⟩ rfl rfl rfl
    exact ⟨s, h1, h4, h6 (by norm_num), h8⟩
  · show ⌊((4 : ℝ) - 10) + 1 / 2⌋ = -6
    norm_num

end Paint
